import Mathlib

/-!
Verification of the geolocation verification pipeline (geo_2.py).

Python strings are modelled as lists of characters.  The string
primitives used by the script (strip, lower, upper, replace, the
substring test of the `in` operator) are given executable models below,
faithful to CPython semantics on the ASCII inputs the script handles:
`replace` rewrites non-overlapping occurrences left to right in a single
pass, `strip` removes leading and trailing whitespace, `lower` and
`upper` act on ASCII letters.

The external fuzzy similarity function (fuzzywuzzy fuzz.ratio, used
as-is by the script) is a parameter of every definition that needs it,
written `fuzz : List Char → List Char → Nat`; the geocoding service is a
parameter assigning to each attempt an outcome.
-/

set_option autoImplicit false

/-- Model of the ASCII action of str.lower on one character. -/
def pyCharLower (c : Char) : Char :=
  if 65 ≤ c.toNat ∧ c.toNat ≤ 90 then Char.ofNat (c.toNat + 32) else c

/-- Model of the ASCII action of str.upper on one character. -/
def pyCharUpper (c : Char) : Char :=
  if 97 ≤ c.toNat ∧ c.toNat ≤ 122 then Char.ofNat (c.toNat - 32) else c

/-- Model of str.lower. -/
def pyLower (s : List Char) : List Char := s.map pyCharLower

/-- Model of str.upper. -/
def pyUpper (s : List Char) : List Char := s.map pyCharUpper

/-- Model of str.strip with no argument: remove leading and trailing whitespace. -/
def pyStrip (s : List Char) : List Char :=
  ((s.dropWhile Char.isWhitespace).reverse.dropWhile Char.isWhitespace).reverse

/-- Fuel-driven worker for pyReplace; the fuel starts at the length of the
subject string, which suffices because every step with a non-empty pattern
consumes at least one character.  (All patterns used by the script are
non-empty.) -/
def pyReplaceAux (old new : List Char) : Nat → List Char → List Char
  | 0, s => s
  | _ + 1, [] => []
  | fuel + 1, c :: rest =>
    if old.isPrefixOf (c :: rest) then
      new ++ pyReplaceAux old new fuel ((c :: rest).drop old.length)
    else
      c :: pyReplaceAux old new fuel rest

/-- Model of str.replace: rewrite every non-overlapping occurrence of old
by new, scanning left to right in one pass. -/
def pyReplace (s old new : List Char) : List Char :=
  pyReplaceAux old new s.length s

/-- Boolean substring test: hasSub s sub is true when sub occurs
contiguously inside s (model of the Python expression sub in s).
The empty string occurs in every string. -/
def hasSub : List Char → List Char → Bool
  | [], sub => sub.isEmpty
  | c :: rest, sub => sub.isPrefixOf (c :: rest) || hasSub rest sub

/-- US state abbreviation table (STATE_PROVINCE_MAPPING, key US), geo_2.py lines 40-54. -/
def usStates : List (List Char × List Char) :=
  [ (("AL").data, ("Alabama").data), (("AK").data, ("Alaska").data),
    (("AZ").data, ("Arizona").data), (("AR").data, ("Arkansas").data),
    (("CA").data, ("California").data), (("CO").data, ("Colorado").data),
    (("CT").data, ("Connecticut").data), (("DE").data, ("Delaware").data),
    (("FL").data, ("Florida").data), (("GA").data, ("Georgia").data),
    (("HI").data, ("Hawaii").data), (("ID").data, ("Idaho").data),
    (("IL").data, ("Illinois").data), (("IN").data, ("Indiana").data),
    (("IA").data, ("Iowa").data), (("KS").data, ("Kansas").data),
    (("KY").data, ("Kentucky").data), (("LA").data, ("Louisiana").data),
    (("ME").data, ("Maine").data), (("MD").data, ("Maryland").data),
    (("MA").data, ("Massachusetts").data), (("MI").data, ("Michigan").data),
    (("MN").data, ("Minnesota").data), (("MS").data, ("Mississippi").data),
    (("MO").data, ("Missouri").data), (("MT").data, ("Montana").data),
    (("NE").data, ("Nebraska").data), (("NV").data, ("Nevada").data),
    (("NH").data, ("New Hampshire").data), (("NJ").data, ("New Jersey").data),
    (("NM").data, ("New Mexico").data), (("NY").data, ("New York").data),
    (("NC").data, ("North Carolina").data), (("ND").data, ("North Dakota").data),
    (("OH").data, ("Ohio").data), (("OK").data, ("Oklahoma").data),
    (("OR").data, ("Oregon").data), (("PA").data, ("Pennsylvania").data),
    (("RI").data, ("Rhode Island").data), (("SC").data, ("South Carolina").data),
    (("SD").data, ("South Dakota").data), (("TN").data, ("Tennessee").data),
    (("TX").data, ("Texas").data), (("UT").data, ("Utah").data),
    (("VT").data, ("Vermont").data), (("VA").data, ("Virginia").data),
    (("WA").data, ("Washington").data), (("WV").data, ("West Virginia").data),
    (("WI").data, ("Wisconsin").data), (("WY").data, ("Wyoming").data) ]

/-- Canadian province/territory abbreviation table (STATE_PROVINCE_MAPPING, key CA), geo_2.py lines 56-70. -/
def caProvinces : List (List Char × List Char) :=
  [ (("AB").data, ("Alberta").data), (("BC").data, ("British Columbia").data),
    (("MB").data, ("Manitoba").data), (("NB").data, ("New Brunswick").data),
    (("NL").data, ("Newfoundland and Labrador").data),
    (("NT").data, ("Northwest Territories").data),
    (("NS").data, ("Nova Scotia").data), (("NU").data, ("Nunavut").data),
    (("ON").data, ("Ontario").data), (("PE").data, ("Prince Edward Island").data),
    (("QC").data, ("Quebec").data), (("SK").data, ("Saskatchewan").data),
    (("YT").data, ("Yukon").data) ]

/-- STATE_PROVINCE_MAPPING, geo_2.py lines 38-71, as an association list. -/
def STATE_PROVINCE_MAPPING : List (List Char × List (List Char × List Char)) :=
  [ (("US").data, usStates), (("CA").data, caProvinces) ]

/-- REVERSE_MAPPINGS, geo_2.py lines 74-77: for each country the map from
lowercased full name back to the abbreviation.  The Python dict
comprehension keeps the last binding of a duplicated key; the full names in
the tables are pairwise distinct, so first-match association-list lookup
agrees with it. -/
def REVERSE_MAPPINGS : List (List Char × List (List Char × List Char)) :=
  STATE_PROVINCE_MAPPING.map fun p => (p.1, p.2.map fun q => (pyLower q.2, q.1))

/-- The ordered replacement table of normalize_name, geo_2.py lines 93-102.
Python dicts iterate in insertion order, so the replacements are applied in
exactly this sequence. -/
def replacements : List (List Char × List Char) :=
  [ ((".").data, []), ((",").data, []),
    (("town of ").data, []), (("city of ").data, []),
    (("united states").data, ("us").data), (("usa").data, ("us").data),
    (("canada").data, ("ca").data), (("  ").data, (" ").data) ]

/-- The replacement loop of normalize_name, geo_2.py lines 103-104. -/
def applyReplacements (s : List Char) : List Char :=
  replacements.foldl (fun n p => pyReplace n p.1 p.2) s

/-- normalize_name, geo_2.py lines 80-105.  The isinstance check always
succeeds in this model (inputs are strings); a blank input yields the empty
string.  When a country code names a known region map and the uppercased
input is a known abbreviation, the lowercased full name is returned
directly; otherwise the replacement table is applied to the stripped,
lowercased input. -/
def normalize_name (name : List Char) (country_code : Option (List Char)) : List Char :=
  if pyStrip name = [] then []
  else
    let n := pyLower (pyStrip name)
    let viaMap : Option (List Char) :=
      match country_code with
      | none => none
      | some cc =>
        if cc = [] then none
        else
          match STATE_PROVINCE_MAPPING.lookup (pyUpper cc) with
          | none => none
          | some mapping => (mapping.lookup (pyUpper n)).map pyLower
    match viaMap with
    | some full => full
    | none => applyReplacements n

/-- A geocoded address payload (location.raw address dict), with the ten
fields the script reads.  A missing field is the empty string, matching the
truthiness tests and default-empty .get calls of the script. -/
structure Address where
  neighbourhood : List Char := []
  suburb : List Char := []
  hamlet : List Char := []
  village : List Char := []
  town : List Char := []
  city : List Char := []
  municipality : List Char := []
  county : List Char := []
  state : List Char := []
  country : List Char := []
deriving DecidableEq

/-- The ordered city-field preference list, geo_2.py lines 123-127. -/
def city_fields (a : Address) : List (List Char) :=
  [a.neighbourhood, a.suburb, a.hamlet, a.village, a.town, a.city,
   a.municipality, a.county]

/-- Extraction of the best-guess city, geo_2.py lines 128-132: the first
non-empty field in the preference order, or the empty string. -/
def extract_city (a : Address) : List Char :=
  ((city_fields a).find? fun s => !s.isEmpty).getD []

/-- Country comparison, geo_2.py lines 147-150: normalized equality or
fuzzy similarity strictly above 85. -/
def country_match_b (fuzz : List Char → List Char → Nat)
    (expected_country rev_country : List Char) : Bool :=
  (expected_country == rev_country) || decide (fuzz expected_country rev_country > 85)

/-- reverse abbreviation lookup, geo_2.py line 160:
REVERSE_MAPPINGS.get(country.upper(), {}).get(rev_state, ''). -/
def reverse_lookup (cc rev_state : List Char) : List Char :=
  match REVERSE_MAPPINGS.lookup cc with
  | none => []
  | some m => (m.lookup rev_state).getD []

/-- State/province comparison, geo_2.py lines 156-166: false unless both
sides are non-empty, otherwise full-name equality, abbreviation match or
fuzzy similarity strictly above 70. -/
def state_match_b (fuzz : List Char → List Char → Nat)
    (country state_abbrev rev_state : List Char) : Bool :=
  let expected_state := normalize_name state_abbrev (some country)
  if expected_state = [] ∨ rev_state = [] then false
  else
    let rev_state_abbrev := reverse_lookup (pyUpper country) rev_state
    (expected_state == rev_state) ||
    (pyLower state_abbrev == pyLower rev_state_abbrev) ||
    decide (fuzz expected_state rev_state > 70)

/-- City comparison, geo_2.py lines 168-175: false when the actual city is
empty, otherwise substring containment either way or fuzzy similarity
strictly above 70. -/
def city_match_b (fuzz : List Char → List Char → Nat)
    (expected_city actual_city : List Char) : Bool :=
  if actual_city = [] then false
  else
    hasSub actual_city expected_city || hasSub expected_city actual_city ||
    decide (fuzz expected_city actual_city > 70)

/-- The reconciliation of one geocoded address against the claimed triple:
geo_2.py lines 120-189 (the body of check_location once an address payload
has been obtained). -/
def reconcile (fuzz : List Char → List Char → Nat)
    (city country state_abbrev : List Char) (a : Address) : String :=
  let rev_city := extract_city a
  let rev_country := normalize_name a.country none
  let rev_state := normalize_name a.state none
  let expected_city := normalize_name city none
  let expected_country := normalize_name country none
  let actual_city := normalize_name rev_city none
  if country_match_b fuzz expected_country rev_country = false then ("inaccurate_country")
  else if city_match_b fuzz expected_city actual_city &&
          state_match_b fuzz country state_abbrev rev_state then ("accurate")
  else if state_match_b fuzz country state_abbrev rev_state &&
          (actual_city == []) then ("state_only_match")
  else if state_match_b fuzz country state_abbrev rev_state then ("state_match_city_mismatch")
  else ("inaccurate")

/-- What the geocoding service does on one attempt: raise GeocoderTimedOut,
raise some other exception, return a falsy/address-less location, or return
an address payload. -/
inductive ServiceOutcome where
  | timeout
  | failure
  | noAddress
  | address (a : Address)
deriving DecidableEq

/-- One observable event of the retry loop of check_location: the sleep
before an attempt (geo_2.py line 113), the service call itself
(line 115), or the backoff sleep after a timed-out attempt (line 194). -/
inductive Event where
  | sleepPre (attempt : Nat)
  | call (attempt : Nat)
  | sleepBackoff (attempt : Nat)
deriving DecidableEq

/-- retries, geo_2.py line 108. -/
def retries : Nat := 3

/-- REQUEST_DELAY, geo_2.py line 19: 1.1 seconds. -/
def REQUEST_DELAY : ℚ := 11 / 10

/-- backoff_factor, geo_2.py line 109: 1.5. -/
def backoff_factor : ℚ := 3 / 2

/-- Duration of the sleep before an attempt, geo_2.py line 113:
REQUEST_DELAY * (attempt + 1). -/
def preAttemptDelay (attempt : Nat) : ℚ := REQUEST_DELAY * (attempt + 1)

/-- Duration of the backoff sleep after a timed-out attempt, geo_2.py
line 192: backoff_factor ** (attempt + 1). -/
def backoffDelay (attempt : Nat) : ℚ := backoff_factor ^ (attempt + 1)

/-- Duration in seconds of each event (a call itself contributes no sleep). -/
def sleepDuration : Event → ℚ
  | .sleepPre k => preAttemptDelay k
  | .call _ => 0
  | .sleepBackoff k => backoffDelay k

/-- The retry loop of check_location, geo_2.py lines 111-201, as a fueled
recursion: fuel counts the loop iterations still available (the loop runs
retries times), attempt is the current 0-based attempt index.  The result
is the returned status together with the trace of events.  Fuel 0
corresponds to falling off the end of the for loop (line 201, unreachable
when started with fuel = retries because both except branches return on the
final attempt). -/
def check_attempts (fuzz : List Char → List Char → Nat)
    (city country state_abbrev : List Char) (outcomes : Nat → ServiceOutcome) :
    Nat → Nat → String × List Event
  | 0, _ => (("unknown"), [])
  | fuel + 1, attempt =>
    match outcomes attempt with
    | .noAddress => (("unknown"), [.sleepPre attempt, .call attempt])
    | .address a =>
      (reconcile fuzz city country state_abbrev a, [.sleepPre attempt, .call attempt])
    | .timeout =>
      if attempt = retries - 1 then
        (("timeout"), [.sleepPre attempt, .call attempt, .sleepBackoff attempt])
      else
        let r := check_attempts fuzz city country state_abbrev outcomes fuel (attempt + 1)
        (r.1, .sleepPre attempt :: .call attempt :: .sleepBackoff attempt :: r.2)
    | .failure =>
      if attempt = retries - 1 then
        (("error"), [.sleepPre attempt, .call attempt])
      else
        let r := check_attempts fuzz city country state_abbrev outcomes fuel (attempt + 1)
        (r.1, .sleepPre attempt :: .call attempt :: r.2)

/-- check_location, geo_2.py lines 107-201 (the index component of the
returned pair is the caller-supplied row index and is omitted; callers pair
the status with the index themselves). -/
def check_location (fuzz : List Char → List Char → Nat)
    (city country state_abbrev : List Char) (outcomes : Nat → ServiceOutcome) :
    String × List Event :=
  check_attempts fuzz city country state_abbrev outcomes retries 0

/-- CHECKPOINT_EVERY, geo_2.py line 16. -/
def CHECKPOINT_EVERY : Nat := 500

/-- One dataset row together with its geo_accuracy status column,
geo_2.py lines 25-31. -/
structure Record where
  idx : Nat
  latitude : ℚ
  longitude : ℚ
  city : List Char
  country : List Char
  state : List Char
  geo_accuracy : String
deriving DecidableEq

/-- df_to_process, geo_2.py line 34: the rows whose status is unchecked. -/
def df_to_process (df : List Record) : List Record :=
  df.filter fun r => r.geo_accuracy == ("unchecked")

/-- The batch-forming loop, geo_2.py lines 205-213 and 244: rows are
appended to the current batch, which is flushed when it reaches
CHECKPOINT_EVERY rows or the last row of df_to_process is reached. -/
def formBatches : List Record → List Record → List (List Record)
  | _, [] => []
  | cur, r :: rest =>
    let cur2 := cur ++ [r]
    if CHECKPOINT_EVERY ≤ cur2.length ∨ rest = [] then cur2 :: formBatches [] rest
    else formBatches cur2 rest

/-- How the scheduler comes to learn (or not learn) the fate of one
submitted future, geo_2.py lines 220-237:
collected      - yielded by as_completed; its check_location result is written;
collectedTimeout - future.result(timeout=30) raised FutureTimeoutError, timeout written;
collectedFail  - future.result raised another exception, error written;
missedNotDone  - the batch deadline fired and the future was not done when
                 the handler inspected it, timeout written;
missedDone     - the batch deadline fired but the future had already
                 completed when the handler inspected it (it finished after
                 the last as_completed yield), so the handler skips it and
                 nothing is written. -/
inductive FutureFate where
  | collected
  | collectedTimeout
  | collectedFail
  | missedNotDone
  | missedDone
deriving DecidableEq

/-- The status (if any) the scheduler writes for one record, geo_2.py
lines 222-237.  svc gives the service outcome of each attempt for each row
index. -/
def fateStatus (fuzz : List Char → List Char → Nat)
    (svc : Nat → Nat → ServiceOutcome) (ft : Nat → FutureFate) (r : Record) :
    Option String :=
  match ft r.idx with
  | .collected => some (check_location fuzz r.city r.country r.state (svc r.idx)).1
  | .collectedTimeout => some ("timeout")
  | .collectedFail => some ("error")
  | .missedNotDone => some ("timeout")
  | .missedDone => none

/-- Model of the status write df.at[i, geo_accuracy] = s, geo_2.py
lines 225, 228, 231, 237: update the status of the record(s) with pandas
index i. -/
def setStatus (df : List Record) (i : Nat) (s : String) : List Record :=
  df.map fun r => if r.idx = i then { r with geo_accuracy := s } else r

/-- Processing of one batch, geo_2.py lines 217-237: each record whose fate
yields a status has that status written at its index. -/
def processBatch (fuzz : List Char → List Char → Nat)
    (svc : Nat → Nat → ServiceOutcome) (ft : Nat → FutureFate)
    (df : List Record) (batch : List Record) : List Record :=
  batch.foldl
    (fun d r =>
      match fateStatus fuzz svc ft r with
      | some s => setStatus d r.idx s
      | none => d)
    df

/-- The sequence of (batch, dataset snapshot written at the checkpoint just
after that batch) pairs, geo_2.py lines 208-244: batches are processed in
order and the whole dataset is persisted after each one (line 241). -/
def runSteps (fuzz : List Char → List Char → Nat)
    (svc : Nat → Nat → ServiceOutcome) (ft : Nat → FutureFate) :
    List Record → List (List Record) → List (List Record × List Record)
  | _, [] => []
  | d, b :: bs =>
    let d2 := processBatch fuzz svc ft d b
    (b, d2) :: runSteps fuzz svc ft d2 bs

/-- The checkpoint snapshots of a whole run over a dataset. -/
def runPipeline (fuzz : List Char → List Char → Nat)
    (svc : Nat → Nat → ServiceOutcome) (ft : Nat → FutureFate)
    (df : List Record) : List (List Record) :=
  (runSteps fuzz svc ft df (formBatches [] (df_to_process df))).map fun p => p.2

/-- The status a record holds in a snapshot, looked up by its index. -/
def statusOf (df : List Record) (i : Nat) : Option String :=
  (df.find? fun r => r.idx == i).map fun r => r.geo_accuracy

/-! ### Concrete instances used by witnesses and counterexamples -/

/-- A trivial similarity function: every comparison scores 0. -/
def fuzzZero : List Char → List Char → Nat := fun _ _ => 0

/-- A service that always answers with an address-less payload. -/
def svcNoAddress : Nat → Nat → ServiceOutcome := fun _ _ => ServiceOutcome.noAddress

/-- Per-attempt outcomes: every attempt raises a non-timeout exception. -/
def outcomesAllFailure : Nat → ServiceOutcome := fun _ => ServiceOutcome.failure

/-- Per-attempt outcomes: every attempt raises GeocoderTimedOut. -/
def outcomesAllTimeout : Nat → ServiceOutcome := fun _ => ServiceOutcome.timeout

/-- Per-attempt outcomes: the first attempt raises a non-timeout exception,
any later attempt succeeds with an address-less payload. -/
def outcomesFailThenNoAddress : Nat → ServiceOutcome :=
  fun k => if k = 0 then ServiceOutcome.failure else ServiceOutcome.noAddress

/-- Per-attempt outcomes: every attempt succeeds with an address-less payload. -/
def outcomesNoAddress : Nat → ServiceOutcome := fun _ => ServiceOutcome.noAddress

/-- A record already verified in a previous run. -/
def recChecked : Record := ⟨0, 0, 0, [], [], [], ("accurate")⟩

/-- A record not yet verified. -/
def recUnchecked : Record := ⟨1, 0, 0, [], [], [], ("unchecked")⟩

/-- A two-row dataset: one already-verified record and one unchecked record. -/
def dfMixed : List Record := [recChecked, recUnchecked]

/-- Every future is collected normally by as_completed. -/
def ftCollected : Nat → FutureFate := fun _ => FutureFate.collected

/-- A one-row dataset holding a single unchecked record with index 0. -/
def recLone : Record := ⟨0, 0, 0, [], [], [], ("unchecked")⟩

/-- The dataset containing just recLone. -/
def dfLone : List Record := [recLone]

/-- Every future completes between the batch deadline and the handler
inspection: done but never yielded, so nothing is written. -/
def ftMissedDone : Nat → FutureFate := fun _ => FutureFate.missedDone


/-! ### Helper lemmas -/

theorem hasSub_nil : ∀ s : List Char, hasSub s [] = true
  | [] => rfl
  | _ :: _ => rfl

theorem pyReplaceAux_id (old new : List Char) :
    ∀ (fuel : Nat) (s : List Char), hasSub s old = false →
      pyReplaceAux old new fuel s = s := by
  intro fuel
  induction fuel with
  | zero => intro s _; rfl
  | succ n ih =>
    intro s h
    cases s with
    | nil => rfl
    | cons c rest =>
      have h2 : old.isPrefixOf (c :: rest) = false ∧ hasSub rest old = false := by
        simpa [hasSub, Bool.or_eq_false_iff] using h
      simp [pyReplaceAux, h2.1, ih rest h2.2]

theorem pyReplace_id (s old new : List Char) (h : hasSub s old = false) :
    pyReplace s old new = s :=
  pyReplaceAux_id old new s.length s h

theorem foldl_pyReplace_id :
    ∀ (l : List (List Char × List Char)) (s : List Char),
      (∀ p ∈ l, hasSub s p.1 = false) →
      l.foldl (fun n p => pyReplace n p.1 p.2) s = s := by
  intro l
  induction l with
  | nil => intro s _; rfl
  | cons p t ih =>
    intro s h
    rw [List.foldl_cons, pyReplace_id s p.1 p.2 (h p (List.mem_cons_self p t))]
    exact ih s fun q hq => h q (List.mem_cons_of_mem p hq)

theorem applyReplacements_id (s : List Char)
    (h : ∀ p ∈ replacements, hasSub s p.1 = false) : applyReplacements s = s :=
  foldl_pyReplace_id replacements s h

theorem lookup_exists_mem {α β : Type} [BEq α] :
    ∀ (l : List (α × β)) (k : α) (v : β), l.lookup k = some v →
      ∃ kk, (kk, v) ∈ l := by
  intro l
  induction l with
  | nil => intro k v h; simp [List.lookup] at h
  | cons p t ih =>
    intro k v h
    obtain ⟨a, b⟩ := p
    rw [List.lookup_cons] at h
    cases hb : (k == a) with
    | true =>
      rw [hb] at h
      exact ⟨a, by simp [Option.some.inj h]⟩
    | false =>
      rw [hb] at h
      obtain ⟨kk, hm⟩ := ih k v h
      exact ⟨kk, List.mem_cons_of_mem _ hm⟩

theorem reconcile_ne_unchecked (fuzz : List Char → List Char → Nat)
    (city country state_abbrev : List Char) (a : Address) :
    reconcile fuzz city country state_abbrev a ≠ ("unchecked") := by
  simp only [reconcile]
  repeat' split
  all_goals decide

theorem check_attempts_ne_unchecked (fuzz : List Char → List Char → Nat)
    (city country state_abbrev : List Char) (outcomes : Nat → ServiceOutcome) :
    ∀ (fuel attempt : Nat),
      (check_attempts fuzz city country state_abbrev outcomes fuel attempt).1 ≠ ("unchecked") := by
  intro fuel
  induction fuel with
  | zero => intro attempt; simp [check_attempts]
  | succ n ih =>
    intro attempt
    cases ho : outcomes attempt with
    | noAddress => simp [check_attempts, ho]
    | address a =>
      simpa [check_attempts, ho] using reconcile_ne_unchecked fuzz city country state_abbrev a
    | timeout =>
      by_cases hl : attempt = retries - 1
      · subst hl; simp [check_attempts, ho]
      · simpa [check_attempts, ho, hl] using ih (attempt + 1)
    | failure =>
      by_cases hl : attempt = retries - 1
      · subst hl; simp [check_attempts, ho]
      · simpa [check_attempts, ho, hl] using ih (attempt + 1)

theorem check_location_ne_unchecked (fuzz : List Char → List Char → Nat)
    (city country state_abbrev : List Char) (outcomes : Nat → ServiceOutcome) :
    (check_location fuzz city country state_abbrev outcomes).1 ≠ ("unchecked") :=
  check_attempts_ne_unchecked fuzz city country state_abbrev outcomes retries 0

theorem fateStatus_ne_unchecked (fuzz : List Char → List Char → Nat)
    (svc : Nat → Nat → ServiceOutcome) (ft : Nat → FutureFate) (r : Record) (s : String)
    (h : fateStatus fuzz svc ft r = some s) : s ≠ ("unchecked") := by
  unfold fateStatus at h
  cases hf : ft r.idx <;> rw [hf] at h
  case collected =>
    have := Option.some.inj h
    exact this ▸ check_location_ne_unchecked fuzz r.city r.country r.state (svc r.idx)
  case collectedTimeout => have := Option.some.inj h; rw [← this]; decide
  case collectedFail => have := Option.some.inj h; rw [← this]; decide
  case missedNotDone => have := Option.some.inj h; rw [← this]; decide
  case missedDone => exact absurd h (by simp)

theorem setStatus_writes (d : List Record) (i : Nat) (s : String)
    (hs : s ≠ ("unchecked")) :
    ∀ r ∈ setStatus d i s, r.idx = i → r.geo_accuracy ≠ ("unchecked")  := by
  intro r hr hi
  obtain ⟨r0, _, he⟩ := List.mem_map.1 hr
  by_cases h0 : r0.idx = i
  · rw [if_pos h0] at he
    rw [← he]
    exact hs
  · rw [if_neg h0] at he
    exact absurd (he ▸ hi) h0

theorem setStatus_keeps (d : List Record) (i j : Nat) (s : String)
    (hs : s ≠ ("unchecked"))
    (h : ∀ r ∈ d, r.idx = i → r.geo_accuracy ≠ ("unchecked")) :
    ∀ r ∈ setStatus d j s, r.idx = i → r.geo_accuracy ≠ ("unchecked") := by
  intro r hr hi
  obtain ⟨r0, hm0, he⟩ := List.mem_map.1 hr
  by_cases h0 : r0.idx = j
  · rw [if_pos h0] at he
    rw [← he]
    exact hs
  · rw [if_neg h0] at he
    have hi0 : r0.idx = i := by rw [he]; exact hi
    have hne := h r0 hm0 hi0
    rw [← he]
    exact hne

theorem processBatch_keeps (fuzz : List Char → List Char → Nat)
    (svc : Nat → Nat → ServiceOutcome) (ft : Nat → FutureFate) :
    ∀ (batch d : List Record) (i : Nat),
      (∀ r ∈ d, r.idx = i → r.geo_accuracy ≠ ("unchecked")) →
      ∀ r ∈ processBatch fuzz svc ft d batch, r.idx = i → r.geo_accuracy ≠ ("unchecked") := by
  intro batch
  induction batch with
  | nil => intro d i h; exact h
  | cons b t ih =>
    intro d i h
    have e : processBatch fuzz svc ft d (b :: t)
        = processBatch fuzz svc ft
            (match fateStatus fuzz svc ft b with
             | some s => setStatus d b.idx s
             | none => d) t := rfl
    rw [e]
    cases hfs : fateStatus fuzz svc ft b with
    | none => exact ih d i h
    | some s =>
      exact ih (setStatus d b.idx s) i
        (setStatus_keeps d i b.idx s (fateStatus_ne_unchecked fuzz svc ft b s hfs) h)

theorem processBatch_hits (fuzz : List Char → List Char → Nat)
    (svc : Nat → Nat → ServiceOutcome) (ft : Nat → FutureFate) :
    ∀ (batch d : List Record) (r : Record),
      r ∈ batch → ft r.idx ≠ FutureFate.missedDone →
      ∀ q ∈ processBatch fuzz svc ft d batch, q.idx = r.idx → q.geo_accuracy ≠ ("unchecked") := by
  intro batch
  induction batch with
  | nil => intro d r hr; exact absurd hr (List.not_mem_nil r)
  | cons b t ih =>
    intro d r hr hft
    have e : processBatch fuzz svc ft d (b :: t)
        = processBatch fuzz svc ft
            (match fateStatus fuzz svc ft b with
             | some s => setStatus d b.idx s
             | none => d) t := rfl
    rcases List.mem_cons.1 hr with rfl | hr'
    · have hsome : ∃ s, fateStatus fuzz svc ft r = some s := by
        unfold fateStatus
        cases hf : ft r.idx with
        | collected => exact ⟨_, rfl⟩
        | collectedTimeout => exact ⟨_, rfl⟩
        | collectedFail => exact ⟨_, rfl⟩
        | missedNotDone => exact ⟨_, rfl⟩
        | missedDone => exact absurd hf hft
      obtain ⟨s, hs⟩ := hsome
      rw [e, hs]
      exact processBatch_keeps fuzz svc ft t (setStatus d r.idx s) r.idx
        (setStatus_writes d r.idx s (fateStatus_ne_unchecked fuzz svc ft r s hs))
    · rw [e]
      cases hfs : fateStatus fuzz svc ft b with
      | none => exact ih d r hr' hft
      | some s => exact ih (setStatus d b.idx s) r hr' hft

theorem statusOf_ne_of_forall (d : List Record) (i : Nat)
    (h : ∀ r ∈ d, r.idx = i → r.geo_accuracy ≠ ("unchecked")) :
    statusOf d i ≠ some ("unchecked") := by
  unfold statusOf
  cases hf : d.find? (fun r => r.idx == i) with
  | none => simp
  | some r =>
    have hm := List.mem_of_find?_eq_some hf
    have hp : r.idx = i := by simpa using List.find?_some hf
    intro hc
    simp only [Option.map_some'] at hc
    exact h r hm hp (Option.some.inj hc)

theorem setStatus_getElem? (d : List Record) (i : Nat) (s : String) (k : Nat)
    (h : ∀ rec, d[k]? = some rec → rec.idx ≠ i) : (setStatus d i s)[k]? = d[k]? := by
  unfold setStatus
  rw [List.getElem?_map]
  cases hk : d[k]? with
  | none => rfl
  | some rec => simp [if_neg (h rec hk)]

theorem processBatch_getElem? (fuzz : List Char → List Char → Nat)
    (svc : Nat → Nat → ServiceOutcome) (ft : Nat → FutureFate) :
    ∀ (batch d : List Record) (k : Nat),
      (∀ r ∈ batch, ∀ rec, d[k]? = some rec → rec.idx ≠ r.idx) →
      (processBatch fuzz svc ft d batch)[k]? = d[k]? := by
  intro batch
  induction batch with
  | nil => intro d k _; rfl
  | cons b t ih =>
    intro d k h
    have e : processBatch fuzz svc ft d (b :: t)
        = processBatch fuzz svc ft
            (match fateStatus fuzz svc ft b with
             | some s => setStatus d b.idx s
             | none => d) t := rfl
    rw [e]
    cases hfs : fateStatus fuzz svc ft b with
    | none => exact ih d k fun r hr => h r (List.mem_cons_of_mem b hr)
    | some s =>
      have e2 : (setStatus d b.idx s)[k]? = d[k]? :=
        setStatus_getElem? d b.idx s k fun rec hrec => h b (List.mem_cons_self b t) rec hrec
      rw [ih (setStatus d b.idx s) k fun r hr rec hrec =>
        h r (List.mem_cons_of_mem b hr) rec (e2 ▸ hrec)]
      exact e2

theorem mem_of_getElem?_record (l : List Record) (k : Nat) (a : Record)
    (h : l[k]? = some a) : a ∈ l := by
  obtain ⟨hlt, he⟩ := List.getElem?_eq_some.1 h
  exact he ▸ List.getElem_mem hlt

theorem pairwise_idx_ne :
    ∀ (df : List Record), df.Pairwise (fun a b => a.idx ≠ b.idx) →
      ∀ a ∈ df, ∀ b ∈ df, a ≠ b → a.idx ≠ b.idx := by
  intro df
  induction df with
  | nil => intro _ a ha; exact absurd ha (List.not_mem_nil a)
  | cons x t ih =>
    intro hp a ha b hb hne
    rw [List.pairwise_cons] at hp
    rcases List.mem_cons.1 ha with rfl | ha' <;> rcases List.mem_cons.1 hb with rfl | hb'
    · exact absurd rfl hne
    · exact hp.1 b hb'
    · exact Ne.symm (hp.1 a ha')
    · exact ih hp.2 a ha' b hb' hne

theorem mem_df_to_process (df : List Record) (r : Record) (h : r ∈ df_to_process df) :
    r ∈ df ∧ r.geo_accuracy = ("unchecked") := by
  rw [df_to_process, List.mem_filter] at h
  exact ⟨h.1, eq_of_beq h.2⟩

theorem mem_formBatches :
    ∀ (rows cur : List Record) (b : List Record),
      b ∈ formBatches cur rows → ∀ r ∈ b, r ∈ cur ∨ r ∈ rows := by
  intro rows
  induction rows with
  | nil => intro cur b hb; exact absurd hb (List.not_mem_nil b)
  | cons x rest ih =>
    intro cur b hb r hr
    simp only [formBatches] at hb
    by_cases hc : CHECKPOINT_EVERY ≤ (cur ++ [x]).length ∨ rest = []
    · rw [if_pos hc] at hb
      rcases List.mem_cons.1 hb with rfl | hb'
      · rcases List.mem_append.1 hr with h1 | h2
        · exact Or.inl h1
        · right
          rw [List.mem_singleton.1 h2]
          exact List.mem_cons_self x rest
      · rcases ih [] b hb' r hr with h1 | h2
        · exact absurd h1 (List.not_mem_nil r)
        · exact Or.inr (List.mem_cons_of_mem x h2)
    · rw [if_neg hc] at hb
      rcases ih (cur ++ [x]) b hb r hr with h1 | h2
      · rcases List.mem_append.1 h1 with m1 | m2
        · exact Or.inl m1
        · right
          rw [List.mem_singleton.1 m2]
          exact List.mem_cons_self x rest
      · exact Or.inr (List.mem_cons_of_mem x h2)

theorem runSteps_preserves (fuzz : List Char → List Char → Nat)
    (svc : Nat → Nat → ServiceOutcome) (ft : Nat → FutureFate)
    (df0 : List Record) (k : Nat) :
    ∀ (batches : List (List Record)) (d : List Record),
      (∀ b ∈ batches, ∀ r ∈ b, ∀ rec, df0[k]? = some rec → rec.idx ≠ r.idx) →
      d[k]? = df0[k]? →
      ∀ p ∈ runSteps fuzz svc ft d batches, p.2[k]? = df0[k]? := by
  intro batches
  induction batches with
  | nil => intro d _ _ p hp; exact absurd hp (List.not_mem_nil p)
  | cons b bs ih =>
    intro d h hd p hp
    have e2 : (processBatch fuzz svc ft d b)[k]? = d[k]? :=
      processBatch_getElem? fuzz svc ft b d k
        (fun r hr rec hrec => h b (List.mem_cons_self b bs) r hr rec (hd ▸ hrec))
    simp only [runSteps] at hp
    rcases List.mem_cons.1 hp with rfl | hp'
    · exact e2.trans hd
    · exact ih (processBatch fuzz svc ft d b)
        (fun bb hbb => h bb (List.mem_cons_of_mem b hbb)) (e2.trans hd) p hp'

theorem call_mem_trace (fuzz : List Char → List Char → Nat)
    (city country state_abbrev : List Char) (outcomes : Nat → ServiceOutcome) :
    ∀ (fuel attempt k : Nat),
      Event.call k ∈ (check_attempts fuzz city country state_abbrev outcomes fuel attempt).2 →
      ∃ pre post, (check_attempts fuzz city country state_abbrev outcomes fuel attempt).2
        = pre ++ Event.sleepPre k :: Event.call k :: post := by
  intro fuel
  induction fuel with
  | zero => intro attempt k h; simp [check_attempts] at h
  | succ n ih =>
    intro attempt k h
    cases ho : outcomes attempt with
    | noAddress =>
      simp [check_attempts, ho] at h
      exact ⟨[], [], by simp [check_attempts, ho, h]⟩
    | address a =>
      simp [check_attempts, ho] at h
      exact ⟨[], [], by simp [check_attempts, ho, h]⟩
    | timeout =>
      by_cases hl : attempt = retries - 1
      · subst hl
        simp [check_attempts, ho] at h
        exact ⟨[], [Event.sleepBackoff (retries - 1)], by simp [check_attempts, ho, h]⟩
      · simp [check_attempts, ho, hl] at h
        rcases h with h | h'
        · exact ⟨[], Event.sleepBackoff attempt ::
            (check_attempts fuzz city country state_abbrev outcomes n (attempt + 1)).2,
            by simp [check_attempts, ho, hl, h]⟩
        · obtain ⟨pre, post, he⟩ := ih (attempt + 1) k h'
          exact ⟨Event.sleepPre attempt :: Event.call attempt :: Event.sleepBackoff attempt :: pre,
            post, by simp [check_attempts, ho, hl, he]⟩
    | failure =>
      by_cases hl : attempt = retries - 1
      · subst hl
        simp [check_attempts, ho] at h
        exact ⟨[], [], by simp [check_attempts, ho, h]⟩
      · simp [check_attempts, ho, hl] at h
        rcases h with h | h'
        · exact ⟨[],
            (check_attempts fuzz city country state_abbrev outcomes n (attempt + 1)).2,
            by simp [check_attempts, ho, hl, h]⟩
        · obtain ⟨pre, post, he⟩ := ih (attempt + 1) k h'
          exact ⟨Event.sleepPre attempt :: Event.call attempt :: pre,
            post, by simp [check_attempts, ho, hl, he]⟩

theorem tableValuesReduced :
    ∀ p ∈ STATE_PROVINCE_MAPPING, ∀ q ∈ p.2,
      applyReplacements (pyLower q.2) = pyLower q.2 := by decide

theorem city_match_empty_expected (fuzz : List Char → List Char → Nat)
    (ac : List Char) (h : ¬ ac = []) : city_match_b fuzz [] ac = true := by
  simp [city_match_b, h, hasSub_nil ac]

/-! ### Claims -/

/-- C1, counterexample: when attempt 0 raises a non-timeout service error
and attempt 1 succeeds with an address-less payload, check_location makes a
second attempt (Event.call 1 appears in the trace) and returns the status
unknown, not error.  This refutes the claim that a non-timeout service
error aborts the retry loop immediately with status error. -/
theorem c1_counterexample :
    (check_location fuzzZero [] [] [] outcomesFailThenNoAddress).1 = ("unknown") ∧
    ¬ (check_location fuzzZero [] [] [] outcomesFailThenNoAddress).1 = ("error") ∧
    Event.call 1 ∈ (check_location fuzzZero [] [] [] outcomesFailThenNoAddress).2 := by
  decide

/-- C1, amended: a non-timeout service error consumes one attempt and is
retried like a timeout; the status error is returned only when the final
attempt also fails that way.  If all three attempts raise non-timeout
errors, check_location performs all three calls and returns error. -/
theorem c1_amended (fuzz : List Char → List Char → Nat)
    (city country state_abbrev : List Char) (outcomes : Nat → ServiceOutcome)
    (h0 : outcomes 0 = ServiceOutcome.failure)
    (h1 : outcomes 1 = ServiceOutcome.failure)
    (h2 : outcomes 2 = ServiceOutcome.failure) :
    check_location fuzz city country state_abbrev outcomes
      = (("error"), [Event.sleepPre 0, Event.call 0, Event.sleepPre 1, Event.call 1,
          Event.sleepPre 2, Event.call 2]) := by
  simp [check_location, check_attempts, retries, h0, h1, h2]

/-- C1, witness for the amended theorem at a concrete all-failure run. -/
theorem c1_witness :
    check_location fuzzZero [] [] [] outcomesAllFailure
      = (("error"), [Event.sleepPre 0, Event.call 0, Event.sleepPre 1, Event.call 1,
          Event.sleepPre 2, Event.call 2]) :=
  c1_amended fuzzZero [] [] [] outcomesAllFailure rfl rfl rfl

/-- C2: once the country has been confirmed matching, the verdict follows
the decision table of the source: city and state match gives accurate,
state match with empty actual city gives state_only_match, state match
with a present actual city that does not match gives
state_match_city_mismatch, and a state mismatch gives inaccurate
regardless of the city comparison.  The two concrete Springfield scenarios
evaluate to accurate and state_only_match for every similarity function. -/
theorem c2_decision_table :
    (∀ (fuzz : List Char → List Char → Nat) (city country state_abbrev : List Char)
        (a : Address),
      country_match_b fuzz (normalize_name country none) (normalize_name a.country none)
        = true →
      ((city_match_b fuzz (normalize_name city none)
          (normalize_name (extract_city a) none) = true ∧
        state_match_b fuzz country state_abbrev (normalize_name a.state none) = true →
        reconcile fuzz city country state_abbrev a = ("accurate")) ∧
       (state_match_b fuzz country state_abbrev (normalize_name a.state none) = true ∧
        normalize_name (extract_city a) none = [] →
        reconcile fuzz city country state_abbrev a = ("state_only_match")) ∧
       (state_match_b fuzz country state_abbrev (normalize_name a.state none) = true ∧
        ¬ normalize_name (extract_city a) none = [] ∧
        city_match_b fuzz (normalize_name city none)
          (normalize_name (extract_city a) none) = false →
        reconcile fuzz city country state_abbrev a = ("state_match_city_mismatch")) ∧
       (state_match_b fuzz country state_abbrev (normalize_name a.state none) = false →
        reconcile fuzz city country state_abbrev a = ("inaccurate")))) ∧
    (∀ fuzz : List Char → List Char → Nat,
      reconcile fuzz (("Springfield").data) (("US").data) (("IL").data)
        { city := ("Springfield").data, state := ("Illinois").data,
          country := ("United States").data } = ("accurate")) ∧
    (∀ fuzz : List Char → List Char → Nat,
      reconcile fuzz (("Springfield").data) (("US").data) (("IL").data)
        { state := ("Illinois").data, country := ("United States").data }
        = ("state_only_match")) := by
  refine ⟨?_, fun fuzz => rfl, fun fuzz => rfl⟩
  intro fuzz city country state_abbrev a hc
  refine ⟨fun h => ?_, fun h => ?_, fun h => ?_, fun h => ?_⟩
  · simp [reconcile, hc, h.1, h.2]
  · have hcm : city_match_b fuzz (normalize_name city none) ([] : List Char) = false := rfl
    simp [reconcile, hc, h.1, h.2, hcm]
  · have hb : (normalize_name (extract_city a) none == ([] : List Char)) = false :=
      beq_eq_false_iff_ne.2 h.2.1
    simp [reconcile, hc, h.1, hb, h.2.2]
  · simp [reconcile, hc, h]

/-- C2, witness: the decision-table branch for a full match, instantiated
at the Springfield scenario with the all-zero similarity function. -/
theorem c2_witness :
    reconcile fuzzZero (("Springfield").data) (("US").data) (("IL").data)
      { city := ("Springfield").data, state := ("Illinois").data,
        country := ("United States").data } = ("accurate") :=
  ((c2_decision_table.1 fuzzZero (("Springfield").data) (("US").data) (("IL").data)
    { city := ("Springfield").data, state := ("Illinois").data,
      country := ("United States").data } (by decide)).1) ⟨by decide, by decide⟩

/-- C3: when the normalized countries are neither equal nor fuzzy-similar
above 85, reconcile returns inaccurate_country, whatever the city and
state fields hold. -/
theorem c3_country_mismatch (fuzz : List Char → List Char → Nat)
    (city country state_abbrev : List Char) (a : Address)
    (hne : ¬ normalize_name country none = normalize_name a.country none)
    (hfz : ¬ fuzz (normalize_name country none) (normalize_name a.country none) > 85) :
    reconcile fuzz city country state_abbrev a = ("inaccurate_country") := by
  have hcm : country_match_b fuzz (normalize_name country none)
      (normalize_name a.country none) = false := by
    unfold country_match_b
    rw [beq_eq_false_iff_ne.2 hne, decide_eq_false hfz]
    rfl
  simp [reconcile, hcm]

/-- C3, witness: expected country us against actual country france with the
all-zero similarity function yields inaccurate_country. -/
theorem c3_witness :
    reconcile fuzzZero (("Paris").data) (("us").data) []
      { city := ("Paris").data, country := ("france").data } = ("inaccurate_country") :=
  c3_country_mismatch fuzzZero (("Paris").data) (("us").data) []
    { city := ("Paris").data, country := ("france").data } (by decide) (by decide)

/-- C4: the retry ceiling is 3; a service-reported timeout consumes exactly
one attempt and is retried, and when all three attempts time out,
check_location performs calls 0, 1 and 2 (one per attempt, each followed by
its backoff sleep) and returns the status timeout. -/
theorem c4_timeout_exhaustion (fuzz : List Char → List Char → Nat)
    (city country state_abbrev : List Char) (outcomes : Nat → ServiceOutcome)
    (h0 : outcomes 0 = ServiceOutcome.timeout)
    (h1 : outcomes 1 = ServiceOutcome.timeout)
    (h2 : outcomes 2 = ServiceOutcome.timeout) :
    check_location fuzz city country state_abbrev outcomes
      = (("timeout"), [Event.sleepPre 0, Event.call 0, Event.sleepBackoff 0,
          Event.sleepPre 1, Event.call 1, Event.sleepBackoff 1,
          Event.sleepPre 2, Event.call 2, Event.sleepBackoff 2]) ∧
    retries = 3 := by
  constructor
  · simp [check_location, check_attempts, retries, h0, h1, h2]
  · rfl

/-- C4, witness at a concrete all-timeout run. -/
theorem c4_witness :
    check_location fuzzZero [] [] [] outcomesAllTimeout
      = (("timeout"), [Event.sleepPre 0, Event.call 0, Event.sleepBackoff 0,
          Event.sleepPre 1, Event.call 1, Event.sleepBackoff 1,
          Event.sleepPre 2, Event.call 2, Event.sleepBackoff 2]) ∧
    retries = 3 :=
  c4_timeout_exhaustion fuzzZero [] [] [] outcomesAllTimeout rfl rfl rfl

/-- C5, counterexample: the delays slept before the attempts are
REQUEST_DELAY * (attempt + 1), an arithmetic progression; there is no base
delay b and growth factor f with preAttemptDelay k = b * f ^ k, so the
pre-attempt waits do not grow geometrically as claimed. -/
theorem c5_counterexample :
    ¬ ∃ b f : ℚ, ∀ k : Nat, preAttemptDelay k = b * f ^ k := by
  rintro ⟨b, f, h⟩
  have h0 := h 0
  have h1 := h 1
  have h2 := h 2
  norm_num [preAttemptDelay, REQUEST_DELAY] at h0 h1 h2
  have hb : b = 11 / 10 := by linarith
  subst hb
  have hf : f = 2 := by linarith
  subst hf
  norm_num at h2

/-- C5, amended: a sleep is performed immediately before every attempt,
including the first; its duration is REQUEST_DELAY * (attempt + 1), which
grows linearly (successive waits differ by the constant REQUEST_DELAY),
while the geometric duration backoff_factor ^ (attempt + 1) belongs to the
extra sleep performed only after a timed-out attempt. -/
theorem c5_amended (fuzz : List Char → List Char → Nat)
    (city country state_abbrev : List Char) (outcomes : Nat → ServiceOutcome) (k : Nat)
    (h : Event.call k ∈ (check_location fuzz city country state_abbrev outcomes).2) :
    (∃ pre post, (check_location fuzz city country state_abbrev outcomes).2
        = pre ++ Event.sleepPre k :: Event.call k :: post) ∧
    sleepDuration (Event.sleepPre k) = REQUEST_DELAY * (k + 1) ∧
    preAttemptDelay (k + 1) - preAttemptDelay k = REQUEST_DELAY ∧
    sleepDuration (Event.sleepBackoff k) = backoff_factor ^ (k + 1) := by
  refine ⟨call_mem_trace fuzz city country state_abbrev outcomes retries 0 k h, rfl, ?_, rfl⟩
  simp only [preAttemptDelay]
  push_cast
  ring

/-- C5, witness for the amended theorem: attempt 0 of a concrete run. -/
theorem c5_witness :
    (∃ pre post, (check_location fuzzZero [] [] [] outcomesNoAddress).2
        = pre ++ Event.sleepPre 0 :: Event.call 0 :: post) ∧
    sleepDuration (Event.sleepPre 0) = REQUEST_DELAY * (0 + 1) ∧
    preAttemptDelay (0 + 1) - preAttemptDelay 0 = REQUEST_DELAY ∧
    sleepDuration (Event.sleepBackoff 0) = backoff_factor ^ (0 + 1) :=
  c5_amended fuzzZero [] [] [] outcomesNoAddress 0 (by decide)

/-- C6: when the country code names a known region map and the uppercased
input matches a known abbreviation, normalize_name yields the lowercased
full name, which is exactly what applying the remaining replacement steps
to the substituted name gives (every full name in the tables is a fixed
point of the replacement pass); in particular CA under US normalizes to the
same value as California with no country context, and reconcile counts
that pair as a state match for every similarity function. -/
theorem c6_abbreviation_expansion :
    (∀ (name cc : List Char) (m : List (List Char × List Char)) (full : List Char),
      ¬ cc = [] →
      STATE_PROVINCE_MAPPING.lookup (pyUpper cc) = some m →
      ¬ pyStrip name = [] →
      m.lookup (pyUpper (pyLower (pyStrip name))) = some full →
      normalize_name name (some cc) = applyReplacements (pyLower full)) ∧
    normalize_name (("CA").data) (some (("US").data))
      = normalize_name (("California").data) none ∧
    (∀ fuzz : List Char → List Char → Nat,
      state_match_b fuzz (("US").data) (("CA").data)
        (normalize_name (("California").data) none) = true) := by
  refine ⟨?_, by decide, fun fuzz => rfl⟩
  intro name cc m full hcc hm hname hfull
  obtain ⟨k1, hk1⟩ := lookup_exists_mem STATE_PROVINCE_MAPPING (pyUpper cc) m hm
  obtain ⟨k2, hk2⟩ := lookup_exists_mem m (pyUpper (pyLower (pyStrip name))) full hfull
  have hred : applyReplacements (pyLower full) = pyLower full :=
    tableValuesReduced (k1, m) hk1 (k2, full) hk2
  rw [hred]
  simp [normalize_name, hname, hcc, hm, hfull]

/-- C6, witness: the abbreviation branch instantiated at CA under US. -/
theorem c6_witness :
    normalize_name (("CA").data) (some (("US").data))
      = applyReplacements (pyLower (("California").data)) :=
  c6_abbreviation_expansion.1 (("CA").data) (("US").data) usStates (("California").data)
    (by decide) (by decide) (by decide) (by decide)

/-- C7, counterexample: normalization is not idempotent.  For the input
usaa, one pass rewrites the occurrence of usa to us leaving usa, and a
second pass rewrites that to us, so normalizing twice differs from
normalizing once. -/
theorem c7_counterexample :
    ¬ normalize_name (normalize_name (("usaa").data) none) none
      = normalize_name (("usaa").data) none := by
  decide

/-- C7, amended: normalization is idempotent exactly on inputs whose
normalized form is already fully reduced: if the normalized form is
trim-stable, lowercase-stable and contains no occurrence of any
replacement key, a second normalization returns it unchanged. -/
theorem c7_amended (x : List Char)
    (h1 : pyStrip (normalize_name x none) = normalize_name x none)
    (h2 : pyLower (normalize_name x none) = normalize_name x none)
    (h3 : ∀ p ∈ replacements, hasSub (normalize_name x none) p.1 = false) :
    normalize_name (normalize_name x none) none = normalize_name x none := by
  set y := normalize_name x none with hy
  by_cases hz : y = []
  · rw [hz]; rfl
  · have hstrip : ¬ pyStrip y = [] := by rw [h1]; exact hz
    unfold normalize_name
    rw [if_neg hstrip, h1, h2]
    exact applyReplacements_id y h3

/-- C7, witness for the amended theorem at the input springfield. -/
theorem c7_witness :
    normalize_name (normalize_name (("springfield").data) none) none
      = normalize_name (("springfield").data) none :=
  c7_amended (("springfield").data) (by decide) (by decide) (by decide)

/-- C8: only records whose status is unchecked are selected for processing,
and when the pandas indices of the dataset are pairwise distinct, every
checkpoint snapshot of a re-run leaves every record whose status is not
unchecked exactly as it was (every status write targets a selected
record). -/
theorem c8_rerun_frame (fuzz : List Char → List Char → Nat)
    (svc : Nat → Nat → ServiceOutcome) (ft : Nat → FutureFate)
    (df : List Record) (hidx : df.Pairwise fun a b => a.idx ≠ b.idx) (k : Nat)
    (hk : ∀ rec, df[k]? = some rec → ¬ rec.geo_accuracy = ("unchecked")) :
    (∀ r ∈ df_to_process df, r.geo_accuracy = ("unchecked")) ∧
    ∀ snap ∈ runPipeline fuzz svc ft df, snap[k]? = df[k]? := by
  constructor
  · intro r hr
    exact (mem_df_to_process df r hr).2
  · intro snap hsnap
    obtain ⟨p, hp, rfl⟩ := List.mem_map.1 hsnap
    refine runSteps_preserves fuzz svc ft df k (formBatches [] (df_to_process df)) df
      ?_ rfl p hp
    intro b hb r hr rec hrec
    have hrin : r ∈ df_to_process df := by
      rcases mem_formBatches (df_to_process df) [] b hb r hr with h1 | h2
      · exact absurd h1 (List.not_mem_nil r)
      · exact h2
    obtain ⟨hrdf, hrunch⟩ := mem_df_to_process df r hrin
    have hrecdf : rec ∈ df := mem_of_getElem?_record df k rec hrec
    have hneq : r ≠ rec := fun e => hk rec hrec (e ▸ hrunch)
    exact Ne.symm (pairwise_idx_ne df hidx r hrdf rec hrecdf hneq)

/-- C8, witness: on a two-row dataset whose first record is already
accurate, the checkpoint written by a re-run keeps that record intact. -/
theorem c8_witness :
    ((runPipeline fuzzZero svcNoAddress ftCollected dfMixed).headD [])[0]? = dfMixed[0]? :=
  (c8_rerun_frame fuzzZero svcNoAddress ftCollected dfMixed (by decide) 0
    (fun rec h => by
      have e : recChecked = rec := Option.some.inj h
      rw [← e]
      decide)).2
    ((runPipeline fuzzZero svcNoAddress ftCollected dfMixed).headD []) (by decide)

/-- C9, counterexample: a batch whose only future completes between the
batch deadline and the timeout handler inspection (done but never yielded
by as_completed) receives no status write at all, so the checkpoint
snapshot written right after that batch still carries the record with
status unchecked, refuting the claim that no record of the just-completed
batch remains unchecked after a checkpoint write. -/
theorem c9_counterexample :
    (runSteps fuzzZero svcNoAddress ftMissedDone dfLone
        (formBatches [] (df_to_process dfLone))).headD ([], [])
      = ([recLone], [recLone]) ∧
    recLone.geo_accuracy = ("unchecked") := by
  decide

/-- C9, amended: provided no future is skipped by the race just described
(every fate differs from missedDone, i.e. every future is either collected
or still not done when the batch-timeout handler inspects it), every
record of a just-processed batch holds a status other than unchecked in
the checkpoint snapshot written right after that batch. -/
theorem c9_amended (fuzz : List Char → List Char → Nat)
    (svc : Nat → Nat → ServiceOutcome) (ft : Nat → FutureFate)
    (hft : ∀ i, ¬ ft i = FutureFate.missedDone) :
    ∀ (batches : List (List Record)) (d : List Record),
      ∀ p ∈ runSteps fuzz svc ft d batches, ∀ r ∈ p.1,
        ¬ statusOf p.2 r.idx = some ("unchecked") := by
  intro batches
  induction batches with
  | nil => intro d p hp; exact absurd hp (List.not_mem_nil p)
  | cons b bs ih =>
    intro d p hp r hr
    simp only [runSteps] at hp
    rcases List.mem_cons.1 hp with rfl | hp'
    · exact statusOf_ne_of_forall _ r.idx
        (processBatch_hits fuzz svc ft b d r hr (hft r.idx))
    · exact ih (processBatch fuzz svc ft d b) p hp' r hr

/-- C9, witness for the amended theorem: a fully collected one-record batch
leaves the record with a status other than unchecked in its checkpoint. -/
theorem c9_witness :
    ¬ statusOf (((runSteps fuzzZero svcNoAddress ftCollected dfLone
        (formBatches [] (df_to_process dfLone))).headD ([], [])).2) 0
      = some ("unchecked") :=
  c9_amended fuzzZero svcNoAddress ftCollected (fun i => by simp [ftCollected])
    (formBatches [] (df_to_process dfLone)) dfLone
    ((runSteps fuzzZero svcNoAddress ftCollected dfLone
        (formBatches [] (df_to_process dfLone))).headD ([], [])) (by decide)
    recLone (by decide)

/-- C10: when the normalized expected city is empty and the actual city is
present, the city comparison counts as a match, because the empty string is
a substring of every string; consequently a record with a blank claimed
city is marked accurate whenever its country and state match. -/
theorem c10_blank_city :
    (∀ (fuzz : List Char → List Char → Nat) (ac : List Char),
      ¬ ac = [] → city_match_b fuzz [] ac = true) ∧
    (∀ (fuzz : List Char → List Char → Nat) (city country state_abbrev : List Char)
        (a : Address),
      normalize_name city none = [] →
      ¬ normalize_name (extract_city a) none = [] →
      country_match_b fuzz (normalize_name country none) (normalize_name a.country none)
        = true →
      state_match_b fuzz country state_abbrev (normalize_name a.state none) = true →
      reconcile fuzz city country state_abbrev a = ("accurate")) := by
  refine ⟨city_match_empty_expected, ?_⟩
  intro fuzz city country state_abbrev a h1 h2 hc hs
  have hcm : city_match_b fuzz (normalize_name city none)
      (normalize_name (extract_city a) none) = true := by
    rw [h1]
    exact city_match_empty_expected fuzz _ h2
  simp [reconcile, hc, hcm, hs]

/-- C10, witness: a blank claimed city with matching country and state and
actual city Paris is marked accurate. -/
theorem c10_witness :
    reconcile fuzzZero [] (("US").data) (("IL").data)
      { city := ("Paris").data, state := ("Illinois").data,
        country := ("United States").data } = ("accurate") :=
  c10_blank_city.2 fuzzZero [] (("US").data) (("IL").data)
    { city := ("Paris").data, state := ("Illinois").data,
      country := ("United States").data }
    (by decide) (by decide) (by decide) (by decide)
